import Mathlib

/-!
Verification development for the layer/undo state engine of the OCRPDF-TO-PPT
editor: the page/layer data model, the raster compositor
(`editor_main.get_page_composited_background`), the history (undo/redo)
subsystem (`core/history.py`), page navigation (`core/page_manager.py`),
text boxes (`textbox.py`) and the font-fit utility (`core/font_fit.py`).

The raster library (PIL) and the file system are external collaborators; they
are modelled by a `PILEnv` record of deterministic functions (file lookup,
image decoding, resampling).  All numeric fields that are Python floats are
modelled as rationals; Python `int` is modelled as `Int`.
-/

set_option maxRecDepth 4000

namespace OCRPPT

/-! ## Raster model (PIL collaborator)

An image is a pixel grid; `pix` is meaningful on `[0, width) × [0, height)`.
A pixel always carries an alpha component: for an image whose PIL mode has no
alpha band, the environment presents its RGBA interpretation (alpha 255), which
is what `Image.convert("RGBA")` produces. -/

structure Pixel where
  r : Nat
  g : Nat
  b : Nat
  a : Nat
  deriving DecidableEq

structure Image where
  width : Nat
  height : Nat
  mode : String
  pix : Nat → Nat → Pixel

@[ext] theorem Image.ext_iff_mk {f g : Image}
    (hw : f.width = g.width) (hh : f.height = g.height)
    (hm : f.mode = g.mode) (hp : f.pix = g.pix) : f = g := by
  cases f; cases g; simp_all

/-- The external collaborators of the compositor: the file system
(`os.path.exists`), image decoding (`PIL.Image.open`, `None` on failure), and
the resampling kernel used by `Image.resize(..., LANCZOS)`.  `resample im w h`
is the pixel content of `im` resampled to the requested size `w × h`;
PIL's `resize` always returns an image of exactly the requested size. -/
structure PILEnv where
  pathExists : String → Bool
  openImage : String → Option Image
  resample : Image → Nat → Nat → (Nat → Nat → Pixel)

/-- `Image.convert("RGBA")`: the pixel model already carries alpha. -/
def convertRGBA (im : Image) : Image :=
  { im with mode := "RGBA" }

/-- `Image.convert("RGB")`: drop the alpha band (PIL discards it without
compositing); the model keeps a constant 255 in its place. -/
def convertRGB (im : Image) : Image :=
  { im with mode := "RGB", pix := fun i j => { im.pix i j with a := 255 } }

/-- `Image.crop((x0, y0, x1, y1))`.  The compositor only crops boxes already
clamped inside the image, where PIL's zero-padding of out-of-bounds regions
never triggers. -/
def cropImage (im : Image) (x0 y0 x1 y1 : Nat) : Image :=
  { width := x1 - x0, height := y1 - y0, mode := im.mode,
    pix := fun i j => im.pix (x0 + i) (y0 + j) }

/-- `Image.resize((w, h), LANCZOS)`, deferring the resampling kernel to the
environment. -/
def resizeImage (env : PILEnv) (im : Image) (w h : Nat) : Image :=
  { width := w, height := h, mode := im.mode, pix := env.resample im w h }

/-- `a.point(lambda v: int(v * opacity))` after `r, g, b, a = overlay.split()`
and `Image.merge`: multiply the alpha band pointwise, truncating toward zero
(`int` on the non-negative product `v * opacity` is the floor,
`v * opacity.num / opacity.den` exactly). -/
def alphaScale (opacity : ℚ) (im : Image) : Image :=
  { im with pix := fun i j =>
      let p := im.pix i j
      { p with a := ((p.a : Int) * opacity.num / (opacity.den : Int)).toNat } }

/-- One-band alpha-over blend of `Image.paste(overlay, (x, y), mask)`:
`out = (base * (255 - a) + over * a) / 255`.  PIL's exact rounding at
intermediate alpha values is immaterial here: every claim below only exercises
`a = 255` (opaque) or untouched pixels. -/
def blend (base over a : Nat) : Nat :=
  (base * (255 - a) + over * a) / 255

/-- `base.paste(overlay, (x, y), overlay)`: paste with the overlay's own alpha
band as the mask.  The canvas keeps its size; the out-of-canvas part of the
overlay is simply never sampled. -/
def pasteImage (base : Image) (x y : Int) (ov : Image) : Image :=
  { base with pix := fun i j =>
      if x ≤ (i : Int) ∧ (i : Int) < x + ov.width ∧
         y ≤ (j : Int) ∧ (j : Int) < y + ov.height then
        let p := ov.pix ((i : Int) - x).toNat ((j : Int) - y).toNat
        let q := base.pix i j
        { r := blend q.r p.r p.a, g := blend q.g p.g p.a,
          b := blend q.b p.b p.a, a := blend q.a p.a p.a }
      else base.pix i j }

/-! ## Layer and page records (dict-based in the source) -/

/-- A crop rectangle as stored in a layer dict.  The source accepts either a
dict (missing keys defaulting to `0`/`0`/`width`/`height` of the overlay) or a
4-sequence; both normalize to four `int(...)` values, so the fields are
optional integers here. -/
structure Crop where
  x0 : Option Int
  y0 : Option Int
  x1 : Option Int
  y1 : Option Int
  deriving DecidableEq

/-- A layer dict (`editor_main.add_image_layer` creates these keys).
`path = none` models a dict without the `"path"` key. -/
structure Layer where
  id : String
  name : String
  path : Option String
  x : Int
  y : Int
  scale : ℚ
  crop : Option Crop
  locked : Bool
  opacity : ℚ
  visible : Bool
  deriving DecidableEq

/-! ## TextBox (src/textbox.py) -/

/-- Acceptance test of CPython `int(s, 16)`: optional surrounding whitespace,
an optional sign, then hex digits with single underscores allowed strictly
between digits. -/
def isHexDigit (c : Char) : Bool :=
  ("0123456789abcdefABCDEF".toList).contains c

def isPySpace (c : Char) : Bool :=
  (" \t\n\r\x0b\x0c".toList).contains c

/-- Digits-with-separating-underscores: `digit (("_")? digit)*`. -/
def hexDigitsRun : List Char → Bool
  | [] => false
  | [c] => isHexDigit c
  | c :: '_' :: c2 :: rest2 => isHexDigit c && hexDigitsRun (c2 :: rest2)
  | c :: c2 :: rest2 => isHexDigit c && hexDigitsRun (c2 :: rest2)

/-- Python `str.strip()` on the character list (ASCII whitespace; the source
never strips non-ASCII whitespace in the inputs of interest). -/
def pyStripList (s : List Char) : List Char :=
  ((s.dropWhile isPySpace).reverse.dropWhile isPySpace).reverse

def pyStrip (s : String) : List Char :=
  pyStripList s.toList

def pyIntHexAccepts (s : List Char) : Bool :=
  match pyStripList s with
  | '+' :: rest => hexDigitsRun rest
  | '-' :: rest => hexDigitsRun rest
  | rest => hexDigitsRun rest

/-- `TextBox._is_valid_color`: starts with `#`, 3 or 6 characters after it,
and the remainder is accepted by `int(color_part, 16)`.  (Characterwise on
the string's characters: `color.startswith('#')` plus `color[1:]`.) -/
def is_valid_color (color : String) : Bool :=
  match color.toList with
  | '#' :: part =>
    if part.length = 3 ∨ part.length = 6 then pyIntHexAccepts part
    else false
  | _ => false

/-- The `#RGB` / `#RRGGBB` hex pattern named by the specification: `#` followed
by exactly 3 or 6 hexadecimal digits.  (Stated from the spec's words, for
comparison with the source's `is_valid_color`.) -/
def specHexPattern (color : String) : Bool :=
  match color.toList with
  | '#' :: part =>
    (part.length = 3 || part.length = 6) && part.all isHexDigit
  | _ => false

def VALID_ALIGNMENTS : List String := ["left", "center", "right"]

/-- A constructed `TextBox` (fields after `__init__` normalization). -/
structure TextBox where
  x : ℚ
  y : ℚ
  width : ℚ
  height : ℚ
  text : String
  font_size : Int
  font_name : String
  font_color : String
  bold : Bool
  italic : Bool
  align : String
  deriving DecidableEq

/-- `TextBox.__init__`.  The `isinstance` checks are enforced by typing; the
remaining validation raises `ValueError` (modelled as `Except.error`) for
width/height/font_size and silently normalizes align and color. -/
def mkTextBox (x y width height : ℚ) (text : String) (font_size : ℚ)
    (font_name font_color : String) (bold italic : Bool) (align : String) :
    Except String TextBox :=
  if width < 0 then .error "宽度必须是非负数字"
  else if height < 0 then .error "高度必须是非负数字"
  else if font_size ≤ 0 then .error "字体大小必须是正数"
  else
    let align1 := if VALID_ALIGNMENTS.contains align then align else "left"
    let color1 := if is_valid_color font_color then font_color else "#000000"
    .ok { x := x, y := y, width := width, height := height, text := text,
          font_size := ⌊font_size⌋, font_name := font_name,
          font_color := color1, bold := bold, italic := italic,
          align := align1 }

/-- The serialized form produced by `TextBox.to_dict` (all 11 keys present). -/
structure TBDict where
  x : ℚ
  y : ℚ
  width : ℚ
  height : ℚ
  text : String
  font_size : Int
  font_name : String
  font_color : String
  bold : Bool
  italic : Bool
  align : String
  deriving DecidableEq

def TextBox.toDict (b : TextBox) : TBDict :=
  { x := b.x, y := b.y, width := b.width, height := b.height, text := b.text,
    font_size := b.font_size, font_name := b.font_name,
    font_color := b.font_color, bold := b.bold, italic := b.italic,
    align := b.align }

/-- `TextBox.from_dict` on a complete dict: re-runs the constructor and turns a
`ValueError` into `None`.  (The missing-required-field branch cannot occur on
a `TBDict`, which always carries all keys, as `to_dict` output does.) -/
def TextBox.fromDict (d : TBDict) : Option TextBox :=
  match mkTextBox d.x d.y d.width d.height d.text (d.font_size : ℚ)
      d.font_name d.font_color d.bold d.italic d.align with
  | .ok b => some b
  | .error _ => none

/-! ## Page records and editor state

A page dict as created on import (`original_path`, `image`, `bg_path`,
`text_boxes`, `layers`).  `image` is optional only because the compositor
guards `page.get("image") is not None`; the application always sets it. -/

structure Page where
  original_path : String
  image : Option Image
  bg_path : Option String
  text_boxes : List TBDict
  layers : List Layer

/-- An inpaint stroke record; its contents are never inspected by the history
engine (only stored and restored wholesale), so it stays abstract. -/
abbrev Stroke := String

/-- The `operation_type` tags accepted by `save_state`/`restore_state`; no
caller passes any other string. -/
inductive OpType where
  | textboxes
  | background
  | inpaint_stroke
  | layers
  | pages_layers
  deriving DecidableEq

/-- The kind-specific `state["data"]` payload built by `save_state`. -/
inductive HistoryData where
  | textboxes (text_boxes : List TBDict)
  | background (old_bg_path : Option String) (new_bg_path : Option String)
  | inpaint_stroke (stroke : Option Stroke) (mask_state : List Stroke)
  | layers (layers : List Layer)
  | pages_layers (pages_layers : List (List Layer))
  deriving DecidableEq

/-- One history record.  `timestamp` is `datetime.now()` formatted; it is
never read back, so it is modelled as `Unit`. -/
structure HistoryEntry where
  type : OpType
  page_index : Nat
  timestamp : Unit
  data : HistoryData
  deriving DecidableEq

/-- The `extra_data` dict of `save_state`.  An outer `none` on `old_bg_path`
models an absent key (the source distinguishes a missing key, which falls back
to the page's current `bg_path`, from a key present with value `None`).
`new_bg_path` and `stroke` are read with plain `.get`, which conflates the
two, so they are flattened. -/
structure ExtraData where
  old_bg_path : Option (Option String) := none
  new_bg_path : Option String := none
  stroke : Option Stroke := none

/-- `(extra_data or {})`: a missing dict behaves as an empty one. -/
def ExtraData.empty : ExtraData := {}

/-- The editor fields touched by the history engine, page navigation and the
claims below (from `ModernPPTEditor.__init__` and `core/page_manager.py`).
GUI-only calls (`refresh_canvas`, `update_listbox`, `update_thumbnails`,
`fit_image_to_canvas`, `update_layer_listbox`, `rebuild_inpaint_mask`,
widget label updates) repaint widgets from this state and are no-ops on it;
`update_status` writes `status`, `messagebox.showwarning` is recorded in
`warning`. -/
structure EditorState where
  pages : List Page
  current_page_index : Nat
  original_img_path : String
  original_image : Option Image
  clean_bg_path : Option String
  text_boxes : List TextBox
  layers : List Layer
  selected_box_index : Int
  selected_boxes : List Nat
  inpaint_mode : Bool
  inpaint_strokes : List Stroke
  history : List HistoryEntry
  history_index : Int
  max_history : Nat
  status : String
  warning : Option String
  unsaved : Bool

def update_status (st : EditorState) (msg : String) : EditorState :=
  { st with status := msg }

def mark_unsaved (st : EditorState) : EditorState :=
  { st with unsaved := true }

/-! ## Page navigation (src/core/page_manager.py) -/

/-- `page_manager.save_current_page`: persist the active buffers into
`pages[current_page_index]`. -/
def save_current_page (st : EditorState) : EditorState :=
  if st.pages.isEmpty ∨ st.pages.length ≤ st.current_page_index then st
  else
    match st.pages[st.current_page_index]? with
    | none => st
    | some page =>
      let page1 := { page with text_boxes := st.text_boxes.map TextBox.toDict,
                               bg_path := st.clean_bg_path,
                               layers := st.layers }
      { st with pages := st.pages.set st.current_page_index page1 }

/-- `page_manager.load_current_page`: copy `pages[current_page_index]` into
the active buffers and reset the selection.  The Python list comprehension
`[TextBox.from_dict(d) for d in ...]` keeps a `None` for an invalid dict;
dicts written by `save_current_page`/`save_state` always reconstruct, so the
`filterMap` below agrees with it on every reachable state. -/
def load_current_page (st : EditorState) : EditorState :=
  if st.pages.isEmpty ∨ st.pages.length ≤ st.current_page_index then st
  else
    match st.pages[st.current_page_index]? with
    | none => st
    | some page =>
      { st with original_img_path := page.original_path,
                original_image := page.image,
                clean_bg_path := page.bg_path,
                text_boxes := page.text_boxes.filterMap TextBox.fromDict,
                layers := page.layers,
                selected_box_index := -1,
                selected_boxes := [] }

/-- `page_manager.delete_page`.  `confirm` is the user's answer to the
`messagebox.askyesno` dialog. -/
def delete_page (st : EditorState) (confirm : Bool) (page_index : Int) :
    EditorState :=
  if page_index < 0 ∨ (st.pages.length : Int) ≤ page_index then st
  else if st.pages.length ≤ 1 then
    { st with warning := some "至少保留一页" }
  else if ¬ confirm then st
  else
    let pages1 := st.pages.eraseIdx page_index.toNat
    let cur1 :=
      if pages1.length ≤ st.current_page_index then pages1.length - 1
      else if page_index < (st.current_page_index : Int) then
        st.current_page_index - 1
      else st.current_page_index
    let st1 := load_current_page
      { st with pages := pages1, current_page_index := cur1 }
    update_status st1 ("已删除页面，剩余 " ++ toString pages1.length ++ " 页")

/-! ## History engine (src/core/history.py) -/

/-- The history entry built at the top of `save_state` (lines 31-62): an
operation-tagged snapshot of the *current* editor state.  Out-of-range page
accesses (`editor.pages[editor.current_page_index]`) would raise in Python;
they are modelled by the `getD`/`bind` fallbacks and are unreachable when
`current_page_index` indexes `pages`. -/
def mkEntry (st : EditorState) (op : OpType) (extra : Option ExtraData) :
    HistoryEntry :=
  let data : HistoryData :=
    match op with
    | .textboxes => .textboxes (st.text_boxes.map TextBox.toDict)
    | .background =>
      let pageBg := (st.pages[st.current_page_index]?).bind Page.bg_path
      .background (((extra.getD ExtraData.empty).old_bg_path).getD pageBg)
        ((extra.getD ExtraData.empty).new_bg_path)
    | .inpaint_stroke =>
      .inpaint_stroke ((extra.getD ExtraData.empty).stroke) st.inpaint_strokes
    | .layers =>
      .layers (((st.pages[st.current_page_index]?).map Page.layers).getD [])
    | .pages_layers => .pages_layers (st.pages.map Page.layers)
  { type := op, page_index := st.current_page_index, timestamp := (),
    data := data }

/-- The branch-pruning step of `save_state` (lines 64-65): when the cursor is
not at the tail, keep only `history[: history_index + 1]`. -/
def truncatedHistory (st : EditorState) : List HistoryEntry :=
  if st.history_index < (st.history.length : Int) - 1 then
    st.history.take (st.history_index + 1).toNat
  else st.history

/-- `history.save_state` (lines 64-72): truncate the future branch when the
cursor is not at the tail, append the new entry, then either evict the oldest
entry (index 0) without advancing `history_index`, or advance it. -/
def save_state (st : EditorState) (op : OpType) (extra : Option ExtraData) :
    EditorState :=
  let entry := mkEntry st op extra
  let hist2 := truncatedHistory st ++ [entry]
  if st.max_history < hist2.length then
    { st with history := hist2.drop 1 }
  else
    { st with history := hist2, history_index := st.history_index + 1 }

/-- `history.restore_state` (lines 97-161).  `env` supplies
`os.path.exists` for the background branch. -/
def restore_state (env : PILEnv) (st : EditorState) (entry : HistoryEntry) :
    EditorState :=
  let st1 :=
    if entry.page_index ≠ st.current_page_index then
      load_current_page
        { save_current_page st with current_page_index := entry.page_index }
    else st
  let st2 :=
    match entry.data with
    | .textboxes tbs =>
      { st1 with text_boxes := tbs.filterMap TextBox.fromDict,
                 selected_box_index := -1, selected_boxes := [] }
    | .background old_bg _ =>
      match st1.pages[st1.current_page_index]? with
      | none => st1
      | some page =>
        let keep : Bool := match old_bg with
          | some p => (p != "") && env.pathExists p
          | none => false
        if keep then
          { st1 with
              pages := st1.pages.set st1.current_page_index
                { page with bg_path := old_bg },
              clean_bg_path := old_bg }
        else
          { st1 with
              pages := st1.pages.set st1.current_page_index
                { page with bg_path := none },
              clean_bg_path := none }
    | .inpaint_stroke _ mask_state =>
      { st1 with inpaint_strokes := mask_state }
    | .layers ls =>
      match st1.pages[st1.current_page_index]? with
      | none => st1
      | some page =>
        { st1 with
            pages := st1.pages.set st1.current_page_index
              { page with layers := ls },
            layers := ls }
    | .pages_layers pls =>
      let pages1 :=
        if ¬ st1.pages.isEmpty ∧ ¬ pls.isEmpty ∧
            pls.length = st1.pages.length then
          (st1.pages.zip pls).map fun pl => { pl.1 with layers := pl.2 }
        else st1.pages
      let stp := { st1 with pages := pages1 }
      match pages1[stp.current_page_index]? with
      | none => stp
      | some page => { stp with layers := page.layers }
  mark_unsaved st2

/-- `history.undo` (lines 75-83). -/
def undo (env : PILEnv) (st : EditorState) : EditorState :=
  if st.history_index ≤ 0 then update_status st "无法撤销"
  else
    let st1 := { st with history_index := st.history_index - 1 }
    let st2 :=
      match st1.history[st1.history_index.toNat]? with
      | some e => restore_state env st1 e
      | none => st1
    update_status st2 "撤销 ?"

/-- `history.redo` (lines 86-94). -/
def redo (env : PILEnv) (st : EditorState) : EditorState :=
  if (st.history.length : Int) - 1 ≤ st.history_index then
    update_status st "无法重做"
  else
    let st1 := { st with history_index := st.history_index + 1 }
    let st2 :=
      match st1.history[st1.history_index.toNat]? with
      | some e => restore_state env st1 e
      | none => st1
    update_status st2 "重做 ?"

/-- A sequence of `save_state` calls (claim C3 quantifies over these). -/
abbrev SaveOp := OpType × Option ExtraData

def applySaves (st : EditorState) (ops : List SaveOp) : EditorState :=
  ops.foldl (fun s op => save_state s op.1 op.2) st

/-! ## Python numeric helpers

Python float quantities are modelled as exact rationals; to keep every
computation kernel-executable they are evaluated on integer
numerator/denominator pairs.  `Int` division `/` below is Euclidean division,
which for the positive denominators involved is floor division. -/

/-- Python `round(a / b)` for `b > 0`: round half to even. -/
def roundHalfEvenDiv (a b : Int) : Int :=
  let f := a / b
  let r := a % b
  if 2 * r < b then f
  else if b < 2 * r then f + 1
  else if f % 2 = 0 then f else f + 1

/-! ## Compositor (editor_main.get_page_composited_background, lines 2011-2096) -/

/-- Lines 2051-2068: clamp the crop rectangle to `[0, size]` on each axis,
crop when non-degenerate, ignore it otherwise (or when absent). -/
def applyCrop (crop : Option Crop) (overlay : Image) : Image :=
  match crop with
  | none => overlay
  | some c =>
    let x0 := max 0 (min (overlay.width : Int) (c.x0.getD 0))
    let y0 := max 0 (min (overlay.height : Int) (c.y0.getD 0))
    let x1 := max 0 (min (overlay.width : Int) (c.x1.getD overlay.width))
    let y1 := max 0 (min (overlay.height : Int) (c.y1.getD overlay.height))
    if x0 < x1 ∧ y0 < y1 then
      cropImage overlay x0.toNat y0.toNat x1.toNat y1.toNat
    else overlay

/-- Lines 2070-2083: default a non-positive scale to 1.0, then resize by the
factor when it differs from 1.0 beyond the 1e-6 tolerance (each target
dimension `round(dim * scale)`, at least 1px).  On the exact fraction
`scale = num/den` (`den > 0`), `abs(scale - 1.0) > 1e-6` is
`1000000 * |num - den| > den`, and `int(round(dim * scale))` is
`roundHalfEvenDiv (dim * num) den`. -/
def applyScale (env : PILEnv) (scale0 : ℚ) (overlay : Image) : Image :=
  let scale := if scale0 ≤ 0 then 1 else scale0
  if (scale.den : Int)
      < 1000000 * ((scale.num - (scale.den : Int)).natAbs : Int) then
    let new_w := max 1 (roundHalfEvenDiv ((overlay.width : Int) * scale.num)
      (scale.den : Int))
    let new_h := max 1 (roundHalfEvenDiv ((overlay.height : Int) * scale.num)
      (scale.den : Int))
    resizeImage env overlay new_w.toNat new_h.toNat
  else overlay

/-- Lines 2085-2090: clamp opacity to `[0, 1]` and, when below 1, multiply
the alpha band by it. -/
def applyOpacity (opacity0 : ℚ) (overlay : Image) : Image :=
  let opacity := max 0 (min opacity0 1)
  if opacity < 1 then alphaScale opacity overlay else overlay

/-- The per-layer processing of the compositing loop (lines 2039-2090): skip
invisible/unresolvable layers, decode, crop after clamping, scale, apply
opacity to the alpha band.  Returns `none` exactly when the loop `continue`s
without pasting.  (A falsy dict in the layer list — `if not layer` — has no
counterpart in the typed model and is skipped just like an invisible one.) -/
def processLayerOverlay (env : PILEnv) (layer : Layer) : Option Image :=
  if ¬ layer.visible then none
  else match layer.path with
  | none => none
  | some p =>
    if p = "" then none
    else if ¬ env.pathExists p then none
    else match env.openImage p with
    | none => none
    | some img0 =>
      some (applyOpacity layer.opacity
        (applyScale env layer.scale (applyCrop layer.crop (convertRGBA img0))))

/-- One iteration of the compositing loop: process the layer and paste it at
`(x, y)` with its own alpha as mask (line 2094), or leave the canvas alone. -/
def pasteLayer (env : PILEnv) (base : Image) (layer : Layer) : Image :=
  match processLayerOverlay env layer with
  | none => base
  | some ov => pasteImage base layer.x layer.y ov

/-- Lines 2016-2028: the working base image — the page background when its
path is set, on disk and decodable, else the page's own edit image
(`page["image"].copy()`), else nothing. -/
def resolveBaseImage (env : PILEnv) (page : Page) : Option Image :=
  let fromBg : Option Image :=
    match page.bg_path with
    | some bp =>
      if (bp != "") && env.pathExists bp then env.openImage bp else none
    | none => none
  match fromBg with
  | some b => some b
  | none => page.image

/-- Lines 2030-2032: defensively resize the base to the edit image's pixel
size when they differ. -/
def fitBaseToEdit (env : PILEnv) (page : Page) (b0 : Image) : Image :=
  match page.image with
  | some e =>
    if b0.width = e.width ∧ b0.height = e.height then b0
    else resizeImage env b0 e.width e.height
  | none => b0

/-- `get_page_composited_background(page)`: background (or base) image plus
all layers, painted in reverse list order, flattened to RGB.  The first
component is the returned image (`None` when the page has no image at all and
the editor has no `original_image`); the second component records the
function's effect on its `page` argument — the source only ever reads from
`page`, so it is handed back unchanged. -/
def get_page_composited_background (env : PILEnv)
    (original_image : Option Image) (page : Page) : Option Image × Page :=
  let result : Option Image :=
    match resolveBaseImage env page with
    | none => original_image
    | some b0 =>
      let canvas := convertRGBA (fitBaseToEdit env page b0)
      some (convertRGB ((page.layers.reverse).foldl (pasteLayer env) canvas))
  (result, page)

/-- `add_image_layer` (lines 2101-2131): build a fresh layer dict and insert
it at index 0 (topmost).  Saving the PIL image to a generated temp path is
file I/O; the generated id and path are parameters here, and the written file
is the environment's business. -/
def add_image_layer (page : Page) (layer_id name path : String) (x y : Int)
    (opacity : ℚ) (visible : Bool) : Layer × Page :=
  let layer : Layer :=
    { id := layer_id, name := name, path := some path, x := x, y := y,
      scale := 1, crop := none, locked := false, opacity := opacity,
      visible := visible }
  (layer, { page with layers := layer :: page.layers })

/-! ## Font fitting (src/core/font_fit.py)

The PIL text-measurement collaborator (`ImageFont.truetype` plus
`draw.textbbox`) is a deterministic function from the pixel font size to the
rendered bounding-box size of the fixed text being fitted; `measure = none`
models an unresolvable font path (`_resolve_font_path` returning `None`).
The two `except` fallbacks inside `fits` (font load or measurement failure
treated as "fits") are failure modes of that collaborator and do not occur
for a total measurement function. -/

/-- `px = max(1, int(round(pt * dpi / 72)))` inside `fits`. -/
def pxOfPt (dpi pt : Int) : Nat :=
  (max 1 (roundHalfEvenDiv (pt * dpi) 72)).toNat

/-- The `fits(pt)` predicate of `fit_font_size_pt` for a working font. -/
def fitsAt (measure : Nat → Nat × Nat) (avail_w avail_h dpi pt : Int) : Bool :=
  let wh := measure (pxOfPt dpi pt)
  ((wh.1 : Int) ≤ avail_w : Bool) && ((wh.2 : Int) ≤ avail_h : Bool)

/-- The 12-iteration binary-search loop of `fit_font_size_pt` (lines 84-90),
on state `(lo, hi, best)`.  `mid = (lo + hi) // 2` is Python floor division;
`Int` division by the positive constant 2 below is Euclidean division, which
agrees with it. -/
def fitLoop (fits : Int → Bool) : Nat → Int × Int × Int → Int × Int × Int
  | 0, s => s
  | n + 1, (lo, hi, best) =>
    let mid := (lo + hi) / 2
    if fits mid then fitLoop fits n (mid + 1, hi, mid)
    else fitLoop fits n (lo, mid - 1, best)

/-- `fit_font_size_pt` (lines 27-92).  Python evaluates the `hi` cap
`int(avail_h * 72 / dpi * 1.8)` and the fallback estimate
`int(avail_h * 72 / dpi * 0.95)` in binary floating point; they are the exact
products `avail_h * 72 * 9 / (dpi * 5)` and `avail_h * 72 * 19 / (dpi * 20)`
here (`int()` truncation is floor division on these non-negative values),
which agrees with the float evaluation for every realistic pixel height. -/
def fit_font_size_pt (measure : Option (Nat → Nat × Nat)) (text : String)
    (box_w_px box_h_px min_pt max_pt dpi padding_x_px padding_y_px : Int) :
    Int :=
  let text1 := pyStrip text
  if text1.isEmpty then max min_pt (min 16 max_pt)
  else if box_w_px ≤ 0 ∨ box_h_px ≤ 0 then max min_pt (min 16 max_pt)
  else
    let avail_w := max 1 (box_w_px - padding_x_px)
    let avail_h := max 1 (box_h_px - padding_y_px)
    match measure with
    | none =>
      let est := avail_h * 72 * 19 / (dpi * 20)
      max min_pt (min est max_pt)
    | some meas =>
      let hi := min max_pt (max min_pt (avail_h * 72 * 9 / (dpi * 5)))
      let res := fitLoop (fitsAt meas avail_w avail_h dpi) 12
        (min_pt, hi, min_pt)
      max min_pt (min res.2.2 max_pt)

/-! ## Facts about the history engine -/

theorem truncatedHistory_length_le (st : EditorState) :
    (truncatedHistory st).length ≤ st.history.length := by
  unfold truncatedHistory
  split
  · simp [List.length_take]
  · exact le_rfl

theorem save_state_max_history (st : EditorState) (op : OpType)
    (extra : Option ExtraData) :
    (save_state st op extra).max_history = st.max_history := by
  unfold save_state
  dsimp only
  split <;> rfl

theorem save_state_length_le (st : EditorState) (op : OpType)
    (extra : Option ExtraData) (h : st.history.length ≤ st.max_history) :
    (save_state st op extra).history.length ≤ st.max_history := by
  have ht := truncatedHistory_length_le st
  unfold save_state
  dsimp only
  split
  · simp only [List.length_drop, List.length_append, List.length_cons,
      List.length_nil]
    omega
  · next hle =>
    simp only [List.length_append, List.length_cons, List.length_nil] at hle ⊢
    omega

theorem applySaves_length_le (ops : List SaveOp) :
    ∀ st : EditorState, st.history.length ≤ st.max_history →
      (applySaves st ops).history.length ≤ st.max_history := by
  induction ops with
  | nil => intro st h; simpa [applySaves] using h
  | cons op rest ih =>
    intro st h
    have hstep : applySaves st (op :: rest)
        = applySaves (save_state st op.1 op.2) rest := rfl
    rw [hstep]
    have h1 := save_state_length_le st op.1 op.2 h
    have h2 := save_state_max_history st op.1 op.2
    have := ih (save_state st op.1 op.2) (by rw [h2]; exact h1)
    rwa [h2] at this

/-- **C3**.  History capacity bound: for every sequence of `save_state`
calls, `len(history)` never exceeds the configured capacity (`max_history`)
after any call returns; when the bound is hit, the oldest entry (index 0) is
the one evicted and `history_index` is not incremented for that call. -/
theorem history_capacity_bound (st : EditorState)
    (hcap : st.history.length ≤ st.max_history) :
    (∀ ops : List SaveOp,
       (applySaves st ops).history.length ≤ st.max_history) ∧
    (∀ (op : OpType) (extra : Option ExtraData),
       0 < st.max_history →
       (truncatedHistory st).length = st.max_history →
       (save_state st op extra).history
           = (truncatedHistory st).drop 1 ++ [mkEntry st op extra] ∧
       (save_state st op extra).history_index = st.history_index) := by
  refine ⟨fun ops => applySaves_length_le ops st hcap, ?_⟩
  intro op extra hmax hhit
  have hguard : st.max_history < (truncatedHistory st ++ [mkEntry st op extra]).length := by
    simp only [List.length_append, List.length_cons, List.length_nil]
    omega
  have hne : truncatedHistory st ≠ [] := by
    intro hnil
    rw [hnil] at hhit
    simp at hhit
    omega
  constructor
  · show (save_state st op extra).history = _
    unfold save_state
    rw [if_pos hguard]
    show (truncatedHistory st ++ [mkEntry st op extra]).drop 1 = _
    rw [List.drop_append_of_le_length (by omega)]
  · show (save_state st op extra).history_index = _
    unfold save_state
    rw [if_pos hguard]

/-- **C4**.  History truncation law: from a state in which at least one
`undo()` has been performed (cursor not at the tail, hence non-negative), a
`save_state` call first discards all entries after `history_index`, and
immediately afterwards `redo()` is a no-op that only reports "无法重做". -/
theorem history_truncation_redo_noop (env : PILEnv) (st : EditorState)
    (op : OpType) (extra : Option ExtraData)
    (hpos : 0 ≤ st.history_index)
    (hnt : st.history_index < (st.history.length : Int) - 1)
    (hcap : st.history.length ≤ st.max_history) :
    (save_state st op extra).history
        = st.history.take (st.history_index + 1).toNat
            ++ [mkEntry st op extra] ∧
    redo env (save_state st op extra)
        = update_status (save_state st op extra) "无法重做" := by
  have htr : truncatedHistory st
      = st.history.take (st.history_index + 1).toNat := by
    unfold truncatedHistory
    rw [if_pos hnt]
  have hlen : (truncatedHistory st).length = (st.history_index + 1).toNat := by
    rw [htr]
    simp only [List.length_take]
    omega
  have hguard : ¬ st.max_history
      < (truncatedHistory st ++ [mkEntry st op extra]).length := by
    simp only [List.length_append, List.length_cons, List.length_nil, hlen]
    omega
  have hsave : save_state st op extra
      = { st with history := truncatedHistory st ++ [mkEntry st op extra],
                  history_index := st.history_index + 1 } := by
    unfold save_state
    rw [if_neg hguard]
  refine ⟨by rw [hsave, htr], ?_⟩
  rw [hsave]
  unfold redo
  rw [if_pos ?_]
  simp only [List.length_append, List.length_cons, List.length_nil, hlen]
  omega

/-- A concrete history entry used by the witness states below. -/
def demoEntry : HistoryEntry :=
  { type := .textboxes, page_index := 0, timestamp := (),
    data := .textboxes [] }

/-- Concrete material for the history claims. -/
def demoBoxA : TextBox :=
  { x := 10, y := 10, width := 100, height := 20, text := "A",
    font_size := 16, font_name := "微软雅黑", font_color := "#000000",
    bold := false, italic := false, align := "left" }

def demoBoxB : TextBox := { demoBoxA with text := "B" }

/-- An environment with no resolvable files (sufficient for the history
claims, which never touch the disk). -/
def emptyEnv : PILEnv :=
  { pathExists := fun _ => false, openImage := fun _ => none,
    resample := fun im _ _ => im.pix }

def demoPage : Page :=
  { original_path := "page1.png", image := none, bg_path := none,
    text_boxes := [], layers := [] }

/-- A fresh session: one page, one text box, empty history. -/
def demoState : EditorState :=
  { pages := [demoPage], current_page_index := 0,
    original_img_path := "page1.png", original_image := none,
    clean_bg_path := none, text_boxes := [demoBoxA], layers := [],
    selected_box_index := -1, selected_boxes := [], inpaint_mode := false,
    inpaint_strokes := [], history := [], history_index := -1,
    max_history := 50, status := "", warning := none, unsaved := false }

/-- A session whose history sits at the capacity bound (3 entries, capacity
3, cursor at the tail). -/
def fullState : EditorState :=
  { demoState with history := List.replicate 3 demoEntry,
                   history_index := 2, max_history := 3 }

/-- A session in which one undo has been performed: 3 entries, cursor at 1. -/
def undoneState : EditorState :=
  { demoState with history := List.replicate 3 demoEntry,
                   history_index := 1 }

theorem history_capacity_bound_witness :
    (applySaves fullState
        [(OpType.textboxes, none), (OpType.layers, none)]).history.length
      ≤ fullState.max_history ∧
    ((save_state fullState OpType.textboxes none).history
        = (truncatedHistory fullState).drop 1
            ++ [mkEntry fullState OpType.textboxes none] ∧
     (save_state fullState OpType.textboxes none).history_index
        = fullState.history_index) :=
  ⟨(history_capacity_bound fullState (by decide)).1 _,
   (history_capacity_bound fullState (by decide)).2 OpType.textboxes none
     (by decide) (by decide)⟩

theorem history_truncation_redo_noop_witness :
    (save_state undoneState OpType.textboxes none).history
        = undoneState.history.take (undoneState.history_index + 1).toNat
            ++ [mkEntry undoneState OpType.textboxes none] ∧
    redo emptyEnv (save_state undoneState OpType.textboxes none)
        = update_status (save_state undoneState OpType.textboxes none)
            "无法重做" :=
  history_truncation_redo_noop emptyEnv undoneState OpType.textboxes none
    (by decide) (by decide) (by decide)

/-- `demoState` after `save_state("textboxes")` followed by the mutation it
announced (the text edited from "A" to "B"). -/
def demoAfterMutation : EditorState :=
  { save_state demoState OpType.textboxes none with text_boxes := [demoBoxB] }

/-- **C1** (code bug).  The undo round-trip fails on the code: starting from
an empty history, one `save_state("textboxes")` (snapshotting the text "A")
followed by the mutation to "B" and one `undo()` leaves the text-box list at
"B" — the `history_index <= 0` guard refuses the undo ("无法撤销") instead of
restoring the snapshot, so the pre-sequence state is not restored. -/
theorem undo_roundtrip_failure :
    (undo emptyEnv demoAfterMutation).text_boxes = [demoBoxB] ∧
    (undo emptyEnv demoAfterMutation).status = "无法撤销" ∧
    demoState.text_boxes = [demoBoxA] ∧ demoBoxA.text = "A" ∧
    demoBoxB.text = "B" := by
  decide

/-! ## Facts about page deletion -/

/-- `load_current_page` only rewrites the active buffers: the page list, the
page cursor, the warning slot and the status line are untouched. -/
theorem load_current_page_frame (st : EditorState) :
    (load_current_page st).pages = st.pages ∧
    (load_current_page st).current_page_index = st.current_page_index ∧
    (load_current_page st).warning = st.warning := by
  unfold load_current_page
  split
  · exact ⟨rfl, rfl, rfl⟩
  · split <;> exact ⟨rfl, rfl, rfl⟩

/-- **C7**.  `delete_page` contract: with exactly one page, deleting it
leaves `pages` unchanged and records the user-visible refusal (and, being a
total function, raises nothing); with more than one page, a valid index and a
confirmed dialog, it removes page `i`, and `current_page_index` is clamped to
the new last index when it would exceed it, decremented when the deleted page
was before it, and otherwise kept — in all cases staying in range. -/
theorem delete_page_contract (st : EditorState) (i : Int) (confirm : Bool) :
    (st.pages.length = 1 → i = 0 →
       (delete_page st confirm i).pages = st.pages ∧
       (delete_page st confirm i).warning = some "至少保留一页") ∧
    (1 < st.pages.length → 0 ≤ i → i < (st.pages.length : Int) →
       st.current_page_index < st.pages.length → confirm = true →
       (delete_page st confirm i).pages = st.pages.eraseIdx i.toNat ∧
       (delete_page st confirm i).current_page_index
         = (if st.pages.length - 1 ≤ st.current_page_index
            then st.pages.length - 2
            else if i < (st.current_page_index : Int)
            then st.current_page_index - 1
            else st.current_page_index) ∧
       (delete_page st confirm i).current_page_index
         < (delete_page st confirm i).pages.length) := by
  constructor
  · intro hlen hi
    subst hi
    unfold delete_page
    rw [if_neg (by omega), if_pos (by omega)]
    exact ⟨rfl, rfl⟩
  · intro hlen hi0 hilt hcur hconfirm
    subst hconfirm
    have herase : (st.pages.eraseIdx i.toNat).length = st.pages.length - 1 := by
      rw [List.length_eraseIdx]
      simp only [if_pos (show i.toNat < st.pages.length by omega)]
    have key : delete_page st true i
        = update_status
            (load_current_page
              { st with pages := st.pages.eraseIdx i.toNat,
                        current_page_index :=
                          if (st.pages.eraseIdx i.toNat).length
                              ≤ st.current_page_index then
                            (st.pages.eraseIdx i.toNat).length - 1
                          else if i < (st.current_page_index : Int) then
                            st.current_page_index - 1
                          else st.current_page_index })
            ("已删除页面，剩余 "
              ++ toString (st.pages.eraseIdx i.toNat).length ++ " 页") := by
      unfold delete_page
      rw [if_neg (by omega), if_neg (by omega), if_neg (by simp)]
    have hframe := load_current_page_frame
      { st with pages := st.pages.eraseIdx i.toNat,
                current_page_index :=
                  if (st.pages.eraseIdx i.toNat).length
                      ≤ st.current_page_index then
                    (st.pages.eraseIdx i.toNat).length - 1
                  else if i < (st.current_page_index : Int) then
                    st.current_page_index - 1
                  else st.current_page_index }
    refine ⟨?_, ?_, ?_⟩
    · rw [key]
      exact hframe.1
    · rw [key]
      show (load_current_page _).current_page_index = _
      rw [hframe.2.1]
      rw [herase]
      dsimp only
      split
      · omega
      · rfl
    · rw [key]
      show (load_current_page _).current_page_index
          < (load_current_page _).pages.length
      rw [hframe.2.1, hframe.1]
      dsimp only
      rw [herase]
      split
      · omega
      · split <;> omega

/-- A three-page session with the cursor on the last page. -/
def threePageState : EditorState :=
  { demoState with
      pages := [demoPage, { demoPage with original_path := "page2.png" },
                { demoPage with original_path := "page3.png" }],
      current_page_index := 2 }

theorem delete_page_contract_witness :
    ((delete_page demoState true 0).pages = demoState.pages ∧
     (delete_page demoState true 0).warning = some "至少保留一页") ∧
    ((delete_page threePageState true 0).pages
        = threePageState.pages.eraseIdx (0 : Int).toNat ∧
     (delete_page threePageState true 0).current_page_index
       = (if threePageState.pages.length - 1
              ≤ threePageState.current_page_index
          then threePageState.pages.length - 2
          else if (0 : Int) < (threePageState.current_page_index : Int)
          then threePageState.current_page_index - 1
          else threePageState.current_page_index) ∧
     (delete_page threePageState true 0).current_page_index
       < (delete_page threePageState true 0).pages.length) :=
  ⟨(delete_page_contract demoState 0 true).1 (by decide) rfl,
   (delete_page_contract threePageState 0 true).2 (by decide) (by decide)
     (by decide) (by decide) rfl⟩

/-! ## TextBox normalization -/

/-- **C8** (code bug).  `TextBox.__init__` is documented (and specified) to
keep only `#RGB`/`#RRGGBB` hex colors and replace anything else by
`"#000000"`, but `_is_valid_color` tests the payload with Python
`int(color_part, 16)`, which also accepts a sign (as well as whitespace and
digit-group underscores).  The construction below therefore succeeds and
stores `"#+ab"`, which matches no hex pattern; the align normalization, in
contrast, behaves as claimed. -/
theorem textbox_color_validation_bug :
    mkTextBox 0 0 1 1 "" 16 "微软雅黑" "#+ab" false false "middle"
      = .ok { x := 0, y := 0, width := 1, height := 1, text := "",
              font_size := 16, font_name := "微软雅黑", font_color := "#+ab",
              bold := false, italic := false, align := "left" } ∧
    is_valid_color "#+ab" = true ∧
    specHexPattern "#+ab" = false ∧
    is_valid_color "#xyz" = false ∧
    (mkTextBox 0 0 1 1 "" 16 "微软雅黑" "#xyz" false false "center"
      = .ok { x := 0, y := 0, width := 1, height := 1, text := "",
              font_size := 16, font_name := "微软雅黑",
              font_color := "#000000", bold := false, italic := false,
              align := "center" }) := by
  refine ⟨rfl, by decide, by decide, by decide, rfl⟩

/-! ## Compositor facts -/

/-- **C5**.  Compositor purity and idempotence: `composite(page)` hands its
`Page` back unchanged (the source performs no assignment to the page record,
its layer list or any layer), and a second call on that unmutated page with
the same environment returns the identical output. -/
theorem composite_pure_idempotent (env : PILEnv) (orig : Option Image)
    (page : Page) :
    (get_page_composited_background env orig page).2 = page ∧
    (get_page_composited_background env orig
        ((get_page_composited_background env orig page).2)).1
      = (get_page_composited_background env orig page).1 :=
  ⟨rfl, rfl⟩

theorem pasteLayer_dims (env : PILEnv) (b : Image) (l : Layer) :
    (pasteLayer env b l).width = b.width ∧
    (pasteLayer env b l).height = b.height := by
  unfold pasteLayer
  cases processLayerOverlay env l
  · exact ⟨rfl, rfl⟩
  · exact ⟨rfl, rfl⟩

theorem foldl_pasteLayer_dims (env : PILEnv) (ls : List Layer) :
    ∀ b : Image, ((ls.foldl (pasteLayer env) b).width = b.width ∧
      (ls.foldl (pasteLayer env) b).height = b.height) := by
  induction ls with
  | nil => intro b; exact ⟨rfl, rfl⟩
  | cons l rest ih =>
    intro b
    have h1 := pasteLayer_dims env b l
    have h2 := ih (pasteLayer env b l)
    simp only [List.foldl_cons]
    omega

theorem fitBaseToEdit_dims (env : PILEnv) (page : Page) (b0 e : Image)
    (he : page.image = some e) :
    (fitBaseToEdit env page b0).width = e.width ∧
    (fitBaseToEdit env page b0).height = e.height := by
  unfold fitBaseToEdit
  rw [he]
  dsimp only
  split
  · next h => exact h
  · exact ⟨rfl, rfl⟩

/-- **C10**.  Composite output dimensions: whenever the page's base image is
present, the compositor returns an RGB image of exactly the base image's
pixel size — whatever `bg_path` resolves to (absent, unreadable or a
different size, which gets resized) and whatever the layers do. -/
theorem composite_output_dims (env : PILEnv) (orig : Option Image)
    (page : Page) (e : Image) (he : page.image = some e) :
    ∃ out : Image, (get_page_composited_background env orig page).1 = some out
      ∧ out.width = e.width ∧ out.height = e.height ∧ out.mode = "RGB" := by
  have hres : ∃ b0, resolveBaseImage env page = some b0 := by
    unfold resolveBaseImage
    cases hbg : (match page.bg_path with
      | some bp =>
        if (bp != "") && env.pathExists bp then env.openImage bp else none
      | none => (none : Option Image)) with
    | some b => exact ⟨b, rfl⟩
    | none => exact ⟨e, he⟩
  obtain ⟨b0, hb0⟩ := hres
  refine ⟨convertRGB ((page.layers.reverse).foldl (pasteLayer env)
    (convertRGBA (fitBaseToEdit env page b0))), ?_, ?_, ?_, rfl⟩
  · show (match resolveBaseImage env page with
      | none => orig
      | some b0 =>
        some (convertRGB ((page.layers.reverse).foldl (pasteLayer env)
          (convertRGBA (fitBaseToEdit env page b0))))) = _
    rw [hb0]
  · have h1 := foldl_pasteLayer_dims env page.layers.reverse
      (convertRGBA (fitBaseToEdit env page b0))
    have h2 := fitBaseToEdit_dims env page b0 e he
    show ((page.layers.reverse).foldl (pasteLayer env)
      (convertRGBA (fitBaseToEdit env page b0))).width = e.width
    rw [h1.1]
    exact h2.1
  · have h1 := foldl_pasteLayer_dims env page.layers.reverse
      (convertRGBA (fitBaseToEdit env page b0))
    have h2 := fitBaseToEdit_dims env page b0 e he
    show ((page.layers.reverse).foldl (pasteLayer env)
      (convertRGBA (fitBaseToEdit env page b0))).height = e.height
    rw [h1.2]
    exact h2.2

/-- A 4×3 all-red opaque test image. -/
def redImage : Image :=
  { width := 4, height := 3, mode := "RGB",
    pix := fun _ _ => { r := 255, g := 0, b := 0, a := 255 } }

/-- A page whose base image is `redImage`, with an unresolvable background
path and one out-of-canvas layer, exercising the defensive branches. -/
def dimsPage : Page :=
  { original_path := "page1.png", image := some redImage,
    bg_path := some "gone.png",
    text_boxes := [],
    layers := [{ id := "l1", name := "图层", path := some "missing.png",
                 x := -50, y := -50, scale := 2, crop := none,
                 locked := false, opacity := 1, visible := true }] }

theorem composite_output_dims_witness :
    ∃ out : Image,
      (get_page_composited_background emptyEnv none dimsPage).1 = some out
        ∧ out.width = redImage.width ∧ out.height = redImage.height
        ∧ out.mode = "RGB" :=
  composite_output_dims emptyEnv none dimsPage redImage rfl

/-! ## Crop clamping -/

/-- The oversized crop rectangle of claim C6:
`{x0: -100, y0: -100, x1: native_w + 100, y1: native_h + 100}`. -/
def bigCrop (w h : Nat) : Crop :=
  { x0 := some (-100), y0 := some (-100),
    x1 := some ((w : Int) + 100), y1 := some ((h : Int) + 100) }

theorem cropImage_full (im : Image) :
    cropImage im 0 0 im.width im.height = im := by
  refine Image.ext_iff_mk ?_ ?_ rfl ?_
  · simp [cropImage]
  · simp [cropImage]
  · funext i j
    simp [cropImage]

theorem applyCrop_bigCrop (ov : Image) (w h : Nat)
    (hw : ov.width = w) (hh : ov.height = h) :
    applyCrop (some (bigCrop w h)) ov = ov := by
  subst hw hh
  unfold applyCrop bigCrop
  dsimp only [Option.getD_some]
  have h1 : max 0 (min (ov.width : Int) (-100)) = 0 := by omega
  have h2 : max 0 (min (ov.height : Int) (-100)) = 0 := by omega
  have h3 : max 0 (min (ov.width : Int) ((ov.width : Int) + 100))
      = (ov.width : Int) := by omega
  have h4 : max 0 (min (ov.height : Int) ((ov.height : Int) + 100))
      = (ov.height : Int) := by omega
  rw [h1, h2, h3, h4]
  split
  · rw [Int.toNat_zero, Int.toNat_natCast, Int.toNat_natCast]
    exact cropImage_full ov
  · rfl

/-- Replacing the oversized crop by no crop at all does not change what the
compositing loop pastes for that layer. -/
theorem processLayerOverlay_bigCrop (env : PILEnv) (layer : Layer)
    (p : String) (img : Image) (hpath : layer.path = some p)
    (hopen : env.openImage p = some img) :
    processLayerOverlay env
        { layer with crop := some (bigCrop img.width img.height) }
      = processLayerOverlay env { layer with crop := none } := by
  unfold processLayerOverlay
  dsimp only
  split
  · rfl
  · rw [hpath]
    dsimp only
    split
    · rfl
    · split
      · rfl
      · rw [hopen]
        dsimp only
        rw [applyCrop_bigCrop (convertRGBA img) img.width img.height rfl rfl]
        rfl

theorem pasteLayer_bigCrop (env : PILEnv) (layer : Layer) (p : String)
    (img : Image) (hpath : layer.path = some p)
    (hopen : env.openImage p = some img) (base : Image) :
    pasteLayer env base
        { layer with crop := some (bigCrop img.width img.height) }
      = pasteLayer env base { layer with crop := none } := by
  unfold pasteLayer
  rw [processLayerOverlay_bigCrop env layer p img hpath hopen]

theorem foldl_congr_mid (f : Image → Layer → Image) (a b : Layer)
    (hab : ∀ base, f base a = f base b) :
    ∀ (pre : List Layer) (init : Image) (post : List Layer),
      List.foldl f init (pre ++ a :: post)
        = List.foldl f init (pre ++ b :: post) := by
  intro pre
  induction pre with
  | nil =>
    intro init post
    simp only [List.nil_append, List.foldl_cons]
    rw [hab]
  | cons x rest ih =>
    intro init post
    simp only [List.cons_append, List.foldl_cons]
    exact ih _ _

/-- **C6**.  Crop clamp equivalence: for a layer whose image resolves with
native size `(w, h)`, compositing with
`crop = {x0: -100, y0: -100, x1: w + 100, y1: h + 100}` is pixel-identical to
compositing the same page with `crop = None` — the coordinates clamp to
`[0, size]` per axis and a degenerate rectangle is ignored. -/
theorem crop_clamp_equivalence (env : PILEnv) (orig : Option Image)
    (page : Page) (pre post : List Layer) (layer : Layer) (p : String)
    (img : Image) (hpath : layer.path = some p)
    (hopen : env.openImage p = some img) :
    (get_page_composited_background env orig
        { page with layers := pre ++
            ({ layer with crop := some (bigCrop img.width img.height) }
              :: post) }).1
      = (get_page_composited_background env orig
          { page with layers := pre ++
              ({ layer with crop := none } :: post) }).1 := by
  unfold get_page_composited_background
  dsimp only
  rw [show resolveBaseImage env { page with layers := pre ++
        ({ layer with crop := some (bigCrop img.width img.height) }
          :: post) } = resolveBaseImage env page from rfl,
      show resolveBaseImage env { page with layers := pre ++
        ({ layer with crop := none } :: post) }
          = resolveBaseImage env page from rfl]
  cases resolveBaseImage env page with
  | none => rfl
  | some b0 =>
    dsimp only
    rw [show fitBaseToEdit env { page with layers := pre ++
          ({ layer with crop := some (bigCrop img.width img.height) }
            :: post) } b0 = fitBaseToEdit env page b0 from rfl,
        show fitBaseToEdit env { page with layers := pre ++
          ({ layer with crop := none } :: post) } b0
            = fitBaseToEdit env page b0 from rfl]
    rw [List.reverse_append, List.reverse_cons, List.append_assoc,
        List.singleton_append, List.reverse_append, List.reverse_cons,
        List.append_assoc, List.singleton_append]
    rw [foldl_congr_mid (pasteLayer env)
      { layer with crop := some (bigCrop img.width img.height) }
      { layer with crop := none }
      (pasteLayer_bigCrop env layer p img hpath hopen)
      post.reverse (convertRGBA (fitBaseToEdit env page b0)) pre.reverse]

/-- A 2×2 all-blue opaque test image. -/
def blueImage : Image :=
  { width := 2, height := 2, mode := "RGBA",
    pix := fun _ _ => { r := 0, g := 0, b := 255, a := 255 } }

/-- An environment resolving `"red.png"` and `"blue.png"`. -/
def twoFileEnv : PILEnv :=
  { pathExists := fun s => s = "red.png" || s = "blue.png",
    openImage := fun s =>
      if s = "red.png" then some redImage
      else if s = "blue.png" then some blueImage
      else none,
    resample := fun im _ _ => im.pix }

def blueLayer : Layer :=
  { id := "lb", name := "蓝", path := some "blue.png", x := 1, y := 1,
    scale := 1, crop := none, locked := false, opacity := 1, visible := true }

def blueLayerBigCrop : Layer :=
  { blueLayer with crop := some (bigCrop blueImage.width blueImage.height) }

def blueLayerNoCrop : Layer := { blueLayer with crop := none }

theorem crop_clamp_equivalence_witness :
    (get_page_composited_background twoFileEnv none
        { dimsPage with layers := [blueLayerBigCrop] }).1
      = (get_page_composited_background twoFileEnv none
          { dimsPage with layers := [blueLayerNoCrop] }).1 :=
  crop_clamp_equivalence twoFileEnv none dimsPage [] [] blueLayer
    "blue.png" blueImage rfl rfl

/-! ## Layer order -/

theorem blend_alpha255 (b o : Nat) : blend b o 255 = o := by
  unfold blend
  omega

theorem pasteImage_pix_alpha255 (base : Image) (x y : Int) (ov : Image)
    (i j : Nat)
    (hx1 : x ≤ (i : Int)) (hx2 : (i : Int) < x + ov.width)
    (hy1 : y ≤ (j : Int)) (hy2 : (j : Int) < y + ov.height)
    (ha : (ov.pix ((i : Int) - x).toNat ((j : Int) - y).toNat).a = 255) :
    (pasteImage base x y ov).pix i j
      = { r := (ov.pix ((i : Int) - x).toNat ((j : Int) - y).toNat).r,
          g := (ov.pix ((i : Int) - x).toNat ((j : Int) - y).toNat).g,
          b := (ov.pix ((i : Int) - x).toNat ((j : Int) - y).toNat).b,
          a := 255 } := by
  unfold pasteImage
  dsimp only
  rw [if_pos ⟨hx1, hx2, hy1, hy2⟩, ha]
  simp [blend_alpha255]

theorem resolveBaseImage_isSome (env : PILEnv) (page : Page) (e : Image)
    (he : page.image = some e) :
    ∃ b0, resolveBaseImage env page = some b0 := by
  unfold resolveBaseImage
  cases hbg : (match page.bg_path with
    | some bp =>
      if (bp != "") && env.pathExists bp then env.openImage bp else none
    | none => (none : Option Image)) with
  | some b => exact ⟨b, rfl⟩
  | none => exact ⟨e, he⟩

/-- **C2**.  Layer order: with two visible, fully opaque layers A (index 0)
and B (index 1), the compositor paints the list in reverse (B first, A last),
so an output pixel covered by both shows A's processed color, never B's; and
`add_image_layer` inserts the newly created layer at index 0 (topmost). -/
theorem layer_order_top_wins (env : PILEnv) (orig : Option Image)
    (page : Page) (A B : Layer) (oA oB e : Image) (i j : Nat)
    (hlayers : page.layers = [A, B])
    (hAvis : A.visible = true) (hBvis : B.visible = true)
    (hAop : A.opacity = 1) (hBop : B.opacity = 1)
    (hA : processLayerOverlay env A = some oA)
    (hB : processLayerOverlay env B = some oB)
    (he : page.image = some e)
    (hi : i < e.width) (hj : j < e.height)
    (hAx1 : A.x ≤ (i : Int)) (hAx2 : (i : Int) < A.x + oA.width)
    (hAy1 : A.y ≤ (j : Int)) (hAy2 : (j : Int) < A.y + oA.height)
    (hBx1 : B.x ≤ (i : Int)) (hBx2 : (i : Int) < B.x + oB.width)
    (hBy1 : B.y ≤ (j : Int)) (hBy2 : (j : Int) < B.y + oB.height)
    (ha : (oA.pix ((i : Int) - A.x).toNat ((j : Int) - A.y).toNat).a = 255) :
    (∀ out, (get_page_composited_background env orig page).1 = some out →
       (out.pix i j).r
           = (oA.pix ((i : Int) - A.x).toNat ((j : Int) - A.y).toNat).r ∧
       (out.pix i j).g
           = (oA.pix ((i : Int) - A.x).toNat ((j : Int) - A.y).toNat).g ∧
       (out.pix i j).b
           = (oA.pix ((i : Int) - A.x).toNat ((j : Int) - A.y).toNat).b) ∧
    (∀ (pg : Page) (lid nm pth : String) (x y : Int) (op : ℚ) (vis : Bool),
       (add_image_layer pg lid nm pth x y op vis).2.layers
         = (add_image_layer pg lid nm pth x y op vis).1 :: pg.layers) := by
  constructor
  · intro out hout
    obtain ⟨b0, hb0⟩ := resolveBaseImage_isSome env page e he
    have hcomp : (get_page_composited_background env orig page).1
        = some (convertRGB (List.foldl (pasteLayer env)
            (convertRGBA (fitBaseToEdit env page b0)) page.layers.reverse)) := by
      unfold get_page_composited_background
      dsimp only
      rw [hb0]
    rw [hcomp, hlayers] at hout
    have hrev : ([A, B] : List Layer).reverse = [B, A] := rfl
    rw [hrev] at hout
    have hfold : List.foldl (pasteLayer env)
        (convertRGBA (fitBaseToEdit env page b0)) [B, A]
          = pasteLayer env (pasteLayer env
              (convertRGBA (fitBaseToEdit env page b0)) B) A := rfl
    rw [hfold] at hout
    have hpA : pasteLayer env (pasteLayer env
        (convertRGBA (fitBaseToEdit env page b0)) B) A
          = pasteImage (pasteLayer env
              (convertRGBA (fitBaseToEdit env page b0)) B) A.x A.y oA := by
      unfold pasteLayer
      rw [hA]
    rw [hpA] at hout
    obtain rfl := (Option.some.inj hout).symm
    have hpix := pasteImage_pix_alpha255
      (pasteLayer env (convertRGBA (fitBaseToEdit env page b0)) B)
      A.x A.y oA i j hAx1 hAx2 hAy1 hAy2 ha
    show ((convertRGB _).pix i j).r = _ ∧ ((convertRGB _).pix i j).g = _
      ∧ ((convertRGB _).pix i j).b = _
    unfold convertRGB
    dsimp only
    rw [hpix]
    exact ⟨rfl, rfl, rfl⟩
  · intro pg lid nm pth x y op vis
    rfl

def redLayer : Layer :=
  { id := "lr", name := "红", path := some "red.png", x := 0, y := 0,
    scale := 1, crop := none, locked := false, opacity := 1, visible := true }

/-- Blue on top (index 0), red below (index 1), both opaque, overlapping at
pixel (1, 1). -/
def layerPage : Page :=
  { original_path := "page1.png", image := some redImage, bg_path := none,
    text_boxes := [], layers := [blueLayer, redLayer] }

theorem layer_order_top_wins_witness :
    (∀ out,
       (get_page_composited_background twoFileEnv none layerPage).1 = some out →
       (out.pix 1 1).r = ((convertRGBA blueImage).pix
           ((1 : Int) - blueLayer.x).toNat ((1 : Int) - blueLayer.y).toNat).r ∧
       (out.pix 1 1).g = ((convertRGBA blueImage).pix
           ((1 : Int) - blueLayer.x).toNat ((1 : Int) - blueLayer.y).toNat).g ∧
       (out.pix 1 1).b = ((convertRGBA blueImage).pix
           ((1 : Int) - blueLayer.x).toNat ((1 : Int) - blueLayer.y).toNat).b) ∧
    (∀ (pg : Page) (lid nm pth : String) (x y : Int) (op : ℚ) (vis : Bool),
       (add_image_layer pg lid nm pth x y op vis).2.layers
         = (add_image_layer pg lid nm pth x y op vis).1 :: pg.layers) :=
  layer_order_top_wins twoFileEnv none layerPage blueLayer redLayer
    (convertRGBA blueImage) (convertRGBA redImage) redImage 1 1
    rfl rfl rfl rfl rfl rfl rfl rfl
    (by decide) (by decide)
    (by decide) (by decide) (by decide) (by decide)
    (by decide) (by decide) (by decide) (by decide)
    (by decide)

/-! ## Binary-search analysis for the font fitter -/

/-- Iterating the search step from an interval of length `< 2^n` empties the
interval (`hi < lo`) within `n` iterations. -/
theorem fitLoop_converges (fits : Int → Bool) :
    ∀ (n : Nat) (s : Int × Int × Int),
      s.2.1 - s.1 + 1 ≤ 2 ^ n - 1 →
      (fitLoop fits n s).2.1 - (fitLoop fits n s).1 + 1 ≤ 0 := by
  intro n
  induction n with
  | zero =>
    intro s h
    simpa [fitLoop] using h
  | succ n ih =>
    intro s h
    obtain ⟨lo, hi, best⟩ := s
    have hpow : (0 : Int) < 2 ^ n := pow_pos (by norm_num) n
    have hpow2 : (2 : Int) ^ (n + 1) = 2 * 2 ^ n := by ring
    simp only [fitLoop]
    dsimp only at h ⊢
    rw [hpow2] at h
    split
    · exact ih _ (by dsimp only; omega)
    · exact ih _ (by dsimp only; omega)

/-- The loop invariant of the search: `best` bounds every fitting size below
the cursor `lo`, `hi` bounds every fitting size at or above `lo`, `best` is
the seed or a fitting size, and the state stays inside `[lo0, hi0]`-derived
bounds. -/
def FitInv (fits : Int → Bool) (lo0 hi0 : Int) (s : Int × Int × Int) : Prop :=
  (∀ p : Int, lo0 ≤ p → p < s.1 → fits p = true → p ≤ s.2.2) ∧
  (∀ p : Int, s.1 ≤ p → p ≤ hi0 → fits p = true → p ≤ s.2.1) ∧
  (s.2.2 = lo0 ∨ fits s.2.2 = true) ∧
  s.2.2 ≤ hi0 ∧ s.1 ≤ hi0 + 1 ∧ s.2.1 ≤ hi0 ∧ s.1 ≤ s.2.1 + 2

theorem fitLoop_inv (fits : Int → Bool)
    (hmono : ∀ a b : Int, a ≤ b → fits b = true → fits a = true)
    (lo0 hi0 : Int) :
    ∀ (n : Nat) (s : Int × Int × Int), FitInv fits lo0 hi0 s →
      FitInv fits lo0 hi0 (fitLoop fits n s) := by
  intro n
  induction n with
  | zero =>
    intro s h
    simpa [fitLoop] using h
  | succ n ih =>
    intro s h
    obtain ⟨lo, hi, best⟩ := s
    obtain ⟨i4, i5, i6, i7, i8, i9, i10⟩ := h
    dsimp only at i4 i5 i6 i7 i8 i9 i10
    simp only [fitLoop]
    split
    · next hfit =>
      apply ih
      refine ⟨?_, ?_, Or.inr hfit, ?_, ?_, ?_, ?_⟩
      · intro p hp0 hplt hpf
        dsimp only at hplt ⊢
        omega
      · intro p hp1 hp2 hpf
        dsimp only at hp1 ⊢
        exact i5 p (by omega) hp2 hpf
      · dsimp only
        omega
      · dsimp only
        omega
      · exact i9
      · dsimp only
        omega
    · next hnfit =>
      apply ih
      have hnf : fits ((lo + hi) / 2) = false := by
        cases hf : fits ((lo + hi) / 2)
        · rfl
        · exact absurd hf hnfit
      refine ⟨i4, ?_, i6, i7, i8, ?_, ?_⟩
      · intro p hp1 hp2 hpf
        dsimp only at hp1 ⊢
        by_contra hcon
        push_neg at hcon
        have hmid : fits ((lo + hi) / 2) = true := hmono _ p (by omega) hpf
        rw [hnf] at hmid
        exact Bool.false_ne_true hmid
      · dsimp only
        omega
      · dsimp only
        omega

/-- What the 12-iteration search computes from `(min_pt, hi, min_pt)`: if
some size in `[lo0, hi0]` fits, `best` is the greatest fitting size (and
itself fits); if none does, the clamped result is `lo0`. -/
theorem fitLoop_characterization (fits : Int → Bool)
    (hmono : ∀ a b : Int, a ≤ b → fits b = true → fits a = true)
    (lo0 hi0 maxpt : Int) (h0 : lo0 ≤ hi0) (hmp : hi0 ≤ maxpt)
    (hlen : hi0 - lo0 + 1 ≤ 2 ^ 12 - 1) :
    (∀ p, lo0 ≤ p → p ≤ hi0 → fits p = true →
       (p ≤ (fitLoop fits 12 (lo0, hi0, lo0)).2.2 ∧
        fits (fitLoop fits 12 (lo0, hi0, lo0)).2.2 = true ∧
        lo0 ≤ (fitLoop fits 12 (lo0, hi0, lo0)).2.2 ∧
        (fitLoop fits 12 (lo0, hi0, lo0)).2.2 ≤ hi0)) ∧
    ((∀ p, lo0 ≤ p → p ≤ hi0 → fits p = false) →
       max lo0 (min (fitLoop fits 12 (lo0, hi0, lo0)).2.2 maxpt) = lo0) := by
  have hinv0 : FitInv fits lo0 hi0 (lo0, hi0, lo0) := by
    refine ⟨?_, ?_, Or.inl rfl, h0, show lo0 ≤ hi0 + 1 by omega, le_rfl,
      show lo0 ≤ hi0 + 2 by omega⟩
    · intro p hp0 hplt
      have hplt2 : p < lo0 := hplt
      omega
    · intro p hp1 hp2 _
      exact hp2
  have hinv := fitLoop_inv fits hmono lo0 hi0 12 (lo0, hi0, lo0) hinv0
  have hconv := fitLoop_converges fits 12 (lo0, hi0, lo0) hlen
  obtain ⟨i4, i5, i6, i7, _, _, _⟩ := hinv
  constructor
  · intro p hp0 hp1 hpf
    have hplt : p < (fitLoop fits 12 (lo0, hi0, lo0)).1 := by
      by_contra hcon
      push_neg at hcon
      have := i5 p hcon hp1 hpf
      omega
    have hple := i4 p hp0 hplt hpf
    have hbfits : fits (fitLoop fits 12 (lo0, hi0, lo0)).2.2 = true := by
      rcases i6 with h | h
      · rw [h]
        have hpeq : p = lo0 := by omega
        rw [hpeq] at hpf
        exact hpf
      · exact h
    have hlo : lo0 ≤ (fitLoop fits 12 (lo0, hi0, lo0)).2.2 := by
      rcases i6 with h | h
      · omega
      · exact le_trans hp0 hple
    exact ⟨hple, hbfits, hlo, i7⟩
  · intro hnone
    rcases i6 with h | h
    · rw [h]
      omega
    · by_cases hge : lo0 ≤ (fitLoop fits 12 (lo0, hi0, lo0)).2.2
      · have hfalse := hnone _ hge i7
        rw [h] at hfalse
        exact absurd hfalse (by simp)
      · push_neg at hge
        omega

/-- Pixel sizes are monotone in the point size (`round` of a fraction with
the fixed positive denominator 72 is monotone in the numerator). -/
theorem pxOfPt_mono (pt1 pt2 : Int) (h : pt1 ≤ pt2) :
    pxOfPt 96 pt1 ≤ pxOfPt 96 pt2 := by
  unfold pxOfPt roundHalfEvenDiv
  dsimp only
  have h1 : pt1 * 96 ≤ pt2 * 96 := by omega
  split_ifs <;> omega

/-- The `fits` predicate is downward monotone in the point size for a
measurement whose bounding box is monotone in the pixel size. -/
theorem fitsAt_mono (meas : Nat → Nat × Nat)
    (hm : ∀ a b : Nat, a ≤ b →
      (meas a).1 ≤ (meas b).1 ∧ (meas a).2 ≤ (meas b).2)
    (aw ah : Int) :
    ∀ a b : Int, a ≤ b → fitsAt meas aw ah 96 b = true →
      fitsAt meas aw ah 96 a = true := by
  intro a b hab hb
  have hpx := pxOfPt_mono a b hab
  have hmm := hm _ _ hpx
  unfold fitsAt at hb ⊢
  dsimp only at hb ⊢
  rw [Bool.and_eq_true, decide_eq_true_eq, decide_eq_true_eq] at hb ⊢
  omega

/-- More horizontal room only makes `fits` more permissive. -/
theorem fitsAt_wider (meas : Nat → Nat × Nat) (aw1 aw2 ah : Int)
    (haw : aw1 ≤ aw2) (p : Int) (h : fitsAt meas aw1 ah 96 p = true) :
    fitsAt meas aw2 ah 96 p = true := by
  unfold fitsAt at h ⊢
  dsimp only at h ⊢
  rw [Bool.and_eq_true, decide_eq_true_eq, decide_eq_true_eq] at h ⊢
  omega

/-- On the binary-search path (non-blank text, positive box, resolvable
font), `fit_font_size_pt` is the clamped result of the 12-iteration search
over `[min_pt, hi]`. -/
theorem fit_font_size_pt_search_eq (meas : Nat → Nat × Nat) (text : String)
    (bw bh : Int) (htext : (pyStrip text).isEmpty = false)
    (hw : 0 < bw) (hh : 0 < bh) :
    fit_font_size_pt (some meas) text bw bh 8 200 96 6 2
      = max 8 (min (fitLoop
          (fitsAt meas (max 1 (bw - 6)) (max 1 (bh - 2)) 96) 12
          (8, min 200 (max 8 (max 1 (bh - 2) * 72 * 9 / (96 * 5))), 8)).2.2
          200) := by
  unfold fit_font_size_pt
  rw [if_neg (by rw [htext]; exact Bool.false_ne_true)]
  rw [if_neg (by omega)]

/-- A measurement constantly reporting a 10000×1 bounding box: monotone, and
too wide for the claim's box at every size. -/
def constMeasure : Nat → Nat × Nat := fun _ => (10000, 1)

/-- **C9** (counterexample).  The claim fails as stated: `constMeasure` is a
monotone rendering, yet for a 100×50 box the returned size (8 pt, the floor
of the search) renders 10000 px wide — far beyond the 94 px of padded room —
so the returned size does not fit the padded box. -/
theorem font_fit_counterexample :
    (∀ a b : Nat, a ≤ b → (constMeasure a).1 ≤ (constMeasure b).1 ∧
       (constMeasure a).2 ≤ (constMeasure b).2) ∧
    fit_font_size_pt (some constMeasure) "A" 100 50 8 200 96 6 2 = 8 ∧
    fitsAt constMeasure (max 1 (100 - 6)) (max 1 (50 - 2)) 96 8 = false := by
  refine ⟨fun a b h => ⟨le_rfl, le_rfl⟩, by decide, by decide⟩

/-- **C9** (amended).  For a non-empty text, a positive box and a font whose
rendered bounding box is monotone in the pixel size: (1) whenever the minimum
size 8 pt fits the padded box, the returned size also fits it (without that
proviso the 8 pt floor is returned even when nothing fits); and (2) for a box
twice as wide at the same height the returned size never shrinks. -/
theorem fit_font_size_fits_and_monotone (meas : Nat → Nat × Nat)
    (hm : ∀ a b : Nat, a ≤ b → (meas a).1 ≤ (meas b).1 ∧
      (meas a).2 ≤ (meas b).2)
    (text : String) (box_w box_h : Int)
    (hw : 0 < box_w) (hh : 0 < box_h)
    (htext : (pyStrip text).isEmpty = false) :
    (fitsAt meas (max 1 (box_w - 6)) (max 1 (box_h - 2)) 96 8 = true →
       fitsAt meas (max 1 (box_w - 6)) (max 1 (box_h - 2)) 96
         (fit_font_size_pt (some meas) text box_w box_h 8 200 96 6 2)
           = true) ∧
    fit_font_size_pt (some meas) text box_w box_h 8 200 96 6 2
      ≤ fit_font_size_pt (some meas) text (2 * box_w) box_h 8 200 96 6 2 := by
  have hE1 := fit_font_size_pt_search_eq meas text box_w box_h htext hw hh
  have hE2 := fit_font_size_pt_search_eq meas text (2 * box_w) box_h htext
    (by omega) hh
  have h0 : (8 : Int) ≤ min 200 (max 8 (max 1 (box_h - 2) * 72 * 9 / (96 * 5))) :=
    le_min (by norm_num) (le_max_left _ _)
  have h200 : min 200 (max 8 (max 1 (box_h - 2) * 72 * 9 / (96 * 5))) ≤ 200 :=
    min_le_left _ _
  have hlen : min 200 (max 8 (max 1 (box_h - 2) * 72 * 9 / (96 * 5))) - 8 + 1
      ≤ (2 : Int) ^ 12 - 1 := by
    have hpow : ((2 : Int) ^ 12 - 1) = 4095 := by norm_num
    omega
  have hchar1 := fitLoop_characterization
    (fitsAt meas (max 1 (box_w - 6)) (max 1 (box_h - 2)) 96)
    (fitsAt_mono meas hm _ _) 8
    (min 200 (max 8 (max 1 (box_h - 2) * 72 * 9 / (96 * 5)))) 200
    h0 h200 hlen
  have hchar2 := fitLoop_characterization
    (fitsAt meas (max 1 (2 * box_w - 6)) (max 1 (box_h - 2)) 96)
    (fitsAt_mono meas hm _ _) 8
    (min 200 (max 8 (max 1 (box_h - 2) * 72 * 9 / (96 * 5)))) 200
    h0 h200 hlen
  constructor
  · intro hfit8
    have c1 := hchar1.1 8 le_rfl h0 hfit8
    rw [hE1]
    have heq : max 8 (min (fitLoop
        (fitsAt meas (max 1 (box_w - 6)) (max 1 (box_h - 2)) 96) 12
        (8, min 200 (max 8 (max 1 (box_h - 2) * 72 * 9 / (96 * 5))), 8)).2.2
        200) = (fitLoop
        (fitsAt meas (max 1 (box_w - 6)) (max 1 (box_h - 2)) 96) 12
        (8, min 200 (max 8 (max 1 (box_h - 2) * 72 * 9 / (96 * 5))), 8)).2.2 := by
      obtain ⟨-, -, hb3, hb4⟩ := c1
      omega
    rw [heq]
    exact c1.2.1
  · rw [hE1, hE2]
    by_cases hex : ∃ p, 8 ≤ p ∧
        p ≤ min 200 (max 8 (max 1 (box_h - 2) * 72 * 9 / (96 * 5))) ∧
        fitsAt meas (max 1 (box_w - 6)) (max 1 (box_h - 2)) 96 p = true
    · obtain ⟨p, hp1, hp2, hp3⟩ := hex
      have c1 := hchar1.1 p hp1 hp2 hp3
      obtain ⟨hc1, hc2, hc3, hc4⟩ := c1
      have hwider : fitsAt meas (max 1 (2 * box_w - 6)) (max 1 (box_h - 2)) 96
          (fitLoop (fitsAt meas (max 1 (box_w - 6)) (max 1 (box_h - 2)) 96) 12
            (8, min 200 (max 8 (max 1 (box_h - 2) * 72 * 9 / (96 * 5))),
              8)).2.2 = true :=
        fitsAt_wider meas _ _ _ (by omega) _ hc2
      have c2 := hchar2.1 _ hc3 hc4 hwider
      obtain ⟨hd1, -, hd3, hd4⟩ := c2
      omega
    · push_neg at hex
      have hnone : ∀ p, 8 ≤ p →
          p ≤ min 200 (max 8 (max 1 (box_h - 2) * 72 * 9 / (96 * 5))) →
          fitsAt meas (max 1 (box_w - 6)) (max 1 (box_h - 2)) 96 p = false := by
        intro p h1 h2
        cases hf : fitsAt meas (max 1 (box_w - 6)) (max 1 (box_h - 2)) 96 p
        · rfl
        · exact absurd hf (hex p h1 h2)
      have hz := hchar1.2 hnone
      rw [hz]
      exact le_max_left _ _

/-- A linear (monotone) measurement: width 10 px and height 1 px per pixel of
font size. -/
def linMeasure : Nat → Nat × Nat := fun px => (px * 10, px)

theorem fit_font_size_fits_and_monotone_witness :
    (fitsAt linMeasure (max 1 (100 - 6)) (max 1 (50 - 2)) 96 8 = true →
       fitsAt linMeasure (max 1 (100 - 6)) (max 1 (50 - 2)) 96
         (fit_font_size_pt (some linMeasure) "A" 100 50 8 200 96 6 2)
           = true) ∧
    fit_font_size_pt (some linMeasure) "A" 100 50 8 200 96 6 2
      ≤ fit_font_size_pt (some linMeasure) "A" (2 * 100) 50 8 200 96 6 2 :=
  fit_font_size_fits_and_monotone linMeasure
    (fun a b h => ⟨by simp only [linMeasure]; omega,
                   by simp only [linMeasure]; omega⟩)
    "A" 100 50 (by decide) (by decide) (by decide)

end OCRPPT
